/-
  Verification of the salmon linear-model engine (src/salmon/model.py).

  Shallow embedding notes:
  * numpy / pandas floating-point arithmetic is modelled exactly, over ℚ where no
    square root is involved and over ℝ where `** 0.5` appears in the source.
  * `np.linalg.solve(A, b)` raises `LinAlgError` exactly when `A` is singular;
    it is modelled as `A⁻¹ *ᵥ b` guarded by a `A.det = 0` test.
  * the expression collaborator (`interpret` / `evaluate`, file expression.py,
    which is not part of the core) delivers the design matrix X and response
    vector y; the embedding therefore takes X, y directly.
-/
import Mathlib

open Matrix

/-! ## Generic OLS core (LinearModel._fit, lines 82-103)

The solver of `_fit`: column means, centering, the centered normal equations,
intercept recovery `ȳ − X̄ᵀβ` (line 100) and the uncentered design matrix with
an explicit Intercept column appended (lines 101-102, the Intercept coefficient
is the last entry of `bhat`, appended by `.loc["Intercept"]`). -/

variable {K : Type} [Field K]

/-- Embeds `X.mean()` (line 82): column-wise means of the design matrix. -/
def colMeans {n p : ℕ} (X : Matrix (Fin n) (Fin p) K) : Fin p → K :=
  fun j => (∑ i, X i j) / (n : K)

/-- Embeds `y.mean()` (line 87): mean of the response vector. -/
def respMean {n : ℕ} (y : Fin n → K) : K :=
  (∑ i, y i) / (n : K)

/-- Embeds `X = X - X_means` (line 93): the centered design matrix. -/
def centeredX {n p : ℕ} (X : Matrix (Fin n) (Fin p) K) : Matrix (Fin n) (Fin p) K :=
  Matrix.of fun i j => X i j - colMeans X j

/-- Embeds `y = y - y_mean` (line 94): the centered response. -/
def centeredResp {n : ℕ} (y : Fin n → K) : Fin n → K :=
  fun i => y i - respMean y

/-- Embeds `X['Intercept'] = 1` (line 102): the uncentered design matrix with an
all-ones Intercept column appended after the existing columns. -/
def withOnes {n p : ℕ} (X : Matrix (Fin n) (Fin p) K) : Matrix (Fin n) (Fin (p + 1)) K :=
  Matrix.of fun i => Fin.snoc (fun k => X i k) 1

/-- Embeds `y_mean[0] - X_means.dot(self.bhat)[0]` (line 100): the recovered
Intercept coefficient `ȳ − X̄ᵀβ`. -/
def interceptCoef {n p : ℕ} (X : Matrix (Fin n) (Fin p) K) (y : Fin n → K)
    (β : Fin p → K) : K :=
  respMean y - ∑ j, colMeans X j * β j

/-- The full coefficient vector: the centered-solve slopes with the Intercept
entry appended last (line 100, `self.bhat.loc["Intercept"] = ...`). -/
def fullCoef {n p : ℕ} (X : Matrix (Fin n) (Fin p) K) (y : Fin n → K)
    (β : Fin p → K) : Fin (p + 1) → K :=
  Fin.snoc β (interceptCoef X y β)

/-- Embeds `np.dot(X, self.bhat)` (line 111): fitted values computed from the
original uncentered X with the explicit Intercept column appended. -/
def fittedValues {n p : ℕ} (X : Matrix (Fin n) (Fin p) K) (γ : Fin (p + 1) → K) :
    Fin n → K :=
  (withOnes X) *ᵥ γ

/-! ## The single-predictor fit on concrete data (ℚ)

The spec's end-to-end example (`x=[1,2,3,4,5]`, `y=[2,4,5,4,5]`, `y ~ x` with
intercept) has one explanatory column, so the centered normal equations
(line 97) are a 1×1 system: `np.linalg.solve([[a]], [b])` returns `b / a`. -/

/-- Embeds `.mean()` on a pandas Series, over ℚ. -/
def listMean (l : List ℚ) : ℚ := l.sum / l.length

/-- The 1×1 centered normal-equation solution of line 97:
`Σ(x−x̄)(y−ȳ) / Σ(x−x̄)²`. -/
def slopeOf (xs ys : List ℚ) : ℚ :=
  (((xs.zip ys).map (fun q => (q.1 - listMean xs) * (q.2 - listMean ys))).sum) /
    ((xs.map (fun x => (x - listMean xs) ^ 2)).sum)

/-- Line 100: the Intercept coefficient `ȳ − x̄·β`. -/
def simpleIntercept (xs ys : List ℚ) : ℚ :=
  listMean ys - listMean xs * slopeOf xs ys

/-- Line 111: fitted values from the uncentered x column and the Intercept. -/
def fittedOf (xs ys : List ℚ) : List ℚ :=
  xs.map (fun x => slopeOf xs ys * x + simpleIntercept xs ys)

/-- The example dataset x column. -/
def exampleXs : List ℚ := [1, 2, 3, 4, 5]

/-- The example dataset y column. -/
def exampleYs : List ℚ := [2, 4, 5, 4, 5]

/-- Embeds `LinearModel.r_squared` (lines 192-211) on the training data of the
single-predictor fit.  `pred` re-evaluates the fit on the training rows, so
`sse = Σ(y − fitted)²` and `ssto = Σ(y − ȳ)²`; the branch on `adjusted`
is copied exactly from lines 204-209 (`len(self.training_x.columns)` is 1). -/
def r_squared (xs ys : List ℚ) (adjusted : Bool) : ℚ :=
  let sse := ((ys.zip (fittedOf xs ys)).map (fun q => (q.1 - q.2) ^ 2)).sum
  let ssto := ((ys.map (fun v => (v - listMean ys) ^ 2))).sum
  let numerator := if adjusted then sse else sse / ((ys.length : ℚ) - 1 - 2)
  let denominator := if adjusted then ssto else ssto / ((ys.length : ℚ) - 1)
  1 - numerator / denominator

/-- Embeds `sse` as computed in `r_squared` (line 201) and `get_sse` (line 181). -/
def sseOf (xs ys : List ℚ) : ℚ :=
  ((ys.zip (fittedOf xs ys)).map (fun q => (q.1 - q.2) ^ 2)).sum

/-- Embeds `ssto` as computed in `r_squared` (line 202). -/
def sstoOf (ys : List ℚ) : ℚ :=
  ((ys.map (fun v => (v - listMean ys) ^ 2))).sum

/-! ## predict (LinearModel.predict, lines 155-178) -/

/-- Error kinds observable from `predict`.  `invalidInput` is the spec's
invalid-input error class (§7a); `nameError_y_vals` is the Python `NameError`
raised when the unbound local name `y_vals` is evaluated at line 171. -/
inductive PredictError where
  | invalidInput : PredictError
  | nameError_y_vals : PredictError
deriving DecidableEq

/-- Point predictions of `predict` (lines 157-161): evaluate the stored
expression on the new x column, append the Intercept column, and multiply by
the stored coefficients of the single-predictor fit. -/
def predictPoint (xs ys xnew : List ℚ) : List ℚ :=
  xnew.map (fun x => slopeOf xs ys * x + simpleIntercept xs ys)

/-- Embeds `LinearModel.predict` (lines 155-178) for the single-predictor fit.
The code never checks that at most one of the two interval flags is set: when
either flag is set it computes `widths` (lines 164-167, with the confidence
branch winning when both flags are set) and then evaluates `y_vals - widths`
(line 171), where `y_vals` is an unbound local name, so Python raises a
`NameError` before any bounds are attached.  Only with both flags unset does
`predict` return the point predictions. -/
def predictSimple (xs ys xnew : List ℚ)
    (confidence_interval prediction_interval : Bool) :
    Except PredictError (List ℚ) :=
  if confidence_interval || prediction_interval then
    Except.error PredictError.nameError_y_vals
  else
    Except.ok (predictPoint xs ys xnew)

/-! ## Sums of squares (get_sse / get_ssr / get_sst, lines 180-190) -/

/-- Pandas error raised by indexing a plain-columned DataFrame with a tuple
key containing a slice. -/
inductive PdError where
  | typeError : PdError
deriving DecidableEq

/-- Embeds the pandas semantics of the expression `self.training_y[:, 0]`
(line 189): `[:, 0]` passes the tuple key `(slice(None), 0)` to
`DataFrame.__getitem__`, which a frame with plain column labels rejects with a
`TypeError` — it is `.iloc[:, 0]` that would select the first column.  The
result never depends on the frame's contents. -/
def dfGetItemSliceInt (_df : List (String × List ℚ)) : Except PdError (List ℚ) :=
  Except.error PdError.typeError

/-- Embeds `get_sse` (lines 180-182): `Σ (y − fitted)²` over the training
rows, via `.iloc[:, 0]` (which is valid pandas). -/
def get_sse (xs ys : List ℚ) : ℚ :=
  ((ys.zip (fittedOf xs ys)).map (fun q => (q.1 - q.2) ^ 2)).sum

/-- Embeds `get_sst` (lines 188-190): evaluates
`(training_y.iloc[:,0] - training_y[:,0].mean())**2 ... .sum()`, whose inner
operand `training_y[:, 0]` raises before anything is summed. -/
def get_sst (ys : List ℚ) : Except PdError ℚ := do
  let badCol ← dfGetItemSliceInt [("y", ys)]
  pure ((ys.map (fun v => (v - listMean badCol) ^ 2)).sum)

/-- Embeds `get_ssr` (lines 184-186): `get_sst() - get_sse()`, so it
propagates whatever `get_sst` raises. -/
def get_ssr (xs ys : List ℚ) : Except PdError ℚ := do
  let sst ← get_sst ys
  pure (sst - get_sse xs ys)

/-- The computation `get_sst` attempts, with the indexing slip repaired
(`.iloc[:, 0]` in place of `[:, 0]`): the sum of squared deviations of the
training response from its mean. -/
def get_sst_fixed (ys : List ℚ) : ℚ :=
  ((ys.map (fun v => (v - listMean ys) ^ 2)).sum)

/-- Same repair applied to `get_ssr`: `SST − SSE`. -/
def get_ssr_fixed (xs ys : List ℚ) : ℚ :=
  get_sst_fixed ys - get_sse xs ys

/-! ## Categorical encoding (LinearModel.extract_columns, lines 549-588)

Data for one categorical variable is its observed column, a list of string
levels, one entry per row. -/

/-- A `Categorical` term as the encoder sees it: a variable name and an
optional explicit level list (`expr.levels`, `None` when no explicit list was
supplied). -/
structure CatTerm where
  name : String
  levels : Option (List String)
deriving DecidableEq

/-- Rendering `str(expr)` of a plain (untransformed) categorical term: its
variable name.  The registry write at line 576 is keyed by this display
name. -/
def CatTerm.displayName (t : CatTerm) : String := t.name

/-- The model's Categorical Level Registry `self.categorical_levels`, an
insertion-ordered map from term name to level list; assignment prepends, and
lookup takes the most recent binding. -/
abbrev Registry := List (String × List String)

/-- Embeds the lookup `expr.name in self.categorical_levels` /
`self.categorical_levels[expr.name]` (lines 554-555). -/
def lookupRegistry (reg : Registry) (k : String) : Option (List String) :=
  (reg.find? (fun e => e.1 == k)).map Prod.snd

/-- Embeds the dict assignment `self.categorical_levels[str(expr)] = levels`
(line 576). -/
def registryInsert (reg : Registry) (k : String) (v : List String) : Registry :=
  (k, v) :: reg

/-- Embeds `levels = data[...].unique(); levels.sort()` (lines 561-562): the
distinct observed values in ascending (lexicographic) order.  The comparison
is by character list, which coincides with the `String` order
(`String.le_iff_toList_le`). -/
def sortedUnique (data : List String) : List String :=
  List.insertionSort (fun a b => a.toList ≤ b.toList) data.dedup

instance : IsTotal String (fun a b => a.toList ≤ b.toList) :=
  ⟨fun a b => le_total a.toList b.toList⟩

instance : IsTrans String (fun a b => a.toList ≤ b.toList) :=
  ⟨fun _ _ _ h1 h2 => le_trans h1 h2⟩

/-- Embeds one cell of the dummy column `(data[name] == level) * 1.0`
(line 580). -/
def indicator (level v : String) : ℚ := if v = level then 1 else 0

/-- Column label `name::level` of a dummy column (line 580). -/
def dummyName (name level : String) : String := name ++ "::" ++ level

/-- Embeds the explicit-level reconciliation of lines 564-573: listed levels
absent from the data are removed (the `levels.remove(level)` loop), and if any
observed value is not among the remaining listed levels, a single `~other~`
entry is appended and the other-flag is set (the `break` makes this happen at
most once). -/
def reconciledLevels (explicit : List String) (data : List String) :
    List String × Bool :=
  let filtered := explicit.filter (fun l => decide (l ∈ data))
  if data.any (fun v => decide (v ∉ filtered)) then (filtered ++ ["~other~"], true)
  else (filtered, false)

/-- Embeds the `Categorical` branch of `LinearModel.extract_columns`
(lines 549-588).  Returns the encoded columns, the term as it stands after the
call (the Python code aliases `levels = expr.levels` and then mutates that
list in place, so reconciliation rewrites `expr.levels`), and the registry
after the call.  `drop_dummy` drops the column named after the first level
(line 586); with an other-flag the catch-all column holds 1 exactly on the
rows where no listed dummy fired (line 582). -/
def extractCategorical (registry : Registry) (expr : CatTerm) (data : List String)
    (drop_dummy update_levels : Bool) :
    List (String × List ℚ) × CatTerm × Registry :=
  let resolved : List String × Bool × Option (List String) :=
    match lookupRegistry registry expr.name with
    | some ls => (ls, false, expr.levels)
    | none =>
      match expr.levels with
      | none => (sortedUnique data, false, none)
      | some ls =>
        let r := reconciledLevels ls data
        (r.1, r.2, some r.1)
  let levels := resolved.1
  let other_flag := resolved.2.1
  let registry2 :=
    if update_levels then registryInsert registry expr.displayName levels else registry
  let lastLevels := if other_flag then levels.dropLast else levels
  let columns := lastLevels.map (fun l => (dummyName expr.name l, data.map (indicator l)))
  let columns :=
    if other_flag then
      columns ++ [(dummyName expr.name "~other~",
        data.map (fun v => if (lastLevels.map (fun l => indicator l v)).sum = 0 then 1 else 0))]
    else columns
  let columns :=
    if drop_dummy then columns.filter (fun c => c.1 ≠ dummyName expr.name (levels.headD ""))
    else columns
  (columns, { expr with levels := resolved.2.2 }, registry2)

/-! ## The fit as a state transition (LinearModel._fit, lines 67-135, over ℝ)

`_fit` mutates the model instance field by field.  The two `np.linalg.solve`
calls (line 97 and line 118) are the only failure points; every assignment
made before a `LinAlgError` escapes stays in place. -/

/-- Fitted-model state stored on a `LinearModel` instance with an intercept:
`None` fields are those not yet assigned by any successful or partial fit. -/
structure ModelState (n p : ℕ) where
  categorical_levels : Registry
  training_data : Option (Matrix (Fin n) (Fin p) ℝ × (Fin n → ℝ))
  training_x : Option (Matrix (Fin n) (Fin p) ℝ)
  training_x_means : Option (Fin p → ℝ)
  training_y : Option (Fin n → ℝ)
  training_y_mean : Option ℝ
  bhat : Option (Fin (p + 1) → ℝ)
  fitted : Option (Fin n → ℝ)
  residuals : Option (Fin n → ℝ)
  std_err_est : Option ℝ
  varMat : Option (Matrix (Fin (p + 1)) (Fin (p + 1)) ℝ)
  std_err_vars : Option (Fin (p + 1) → ℝ)
  t_vals : Option (Fin (p + 1) → ℝ)
  p_vals : Option (Fin (p + 1) → ℝ)

/-- State of a freshly constructed model (lines 39-52): nothing fitted yet. -/
def ModelState.empty (n p : ℕ) : ModelState n p :=
  ⟨[], none, none, none, none, none, none, none, none, none, none, none, none, none⟩

/-- Embeds the assignments of lines 69-89, all made before the first solve:
the registry is re-initialised and the training data, design matrix, response
and their means are stored. -/
noncomputable def fitUpdateBase {n p : ℕ} (st : ModelState n p) (X : Matrix (Fin n) (Fin p) ℝ)
    (y : Fin n → ℝ) : ModelState n p :=
  { st with
    categorical_levels := []
    training_data := some (X, y)
    training_x := some X
    training_x_means := some (colMeans X)
    training_y := some y
    training_y_mean := some (respMean y) }

/-- Embeds line 97: `np.linalg.solve(XᵀX, Xᵀy)` on the centered data, written
with the matrix inverse (valid whenever the solve does not raise). -/
noncomputable def betaSolve {n p : ℕ} (X : Matrix (Fin n) (Fin p) ℝ)
    (y : Fin n → ℝ) : Fin p → ℝ :=
  ((centeredX X)ᵀ * centeredX X)⁻¹ *ᵥ ((centeredX X)ᵀ *ᵥ centeredResp y)

/-- Embeds the further assignments of lines 97-115, made after the first solve
succeeds: full coefficient vector with the Intercept entry, fitted values from
the uncentered design with the Intercept column, residuals, and the residual
standard error with divisor `n - p - 1` (line 115, `p` excluding the
Intercept column per line 108). -/
noncomputable def fitUpdateCoef {n p : ℕ} (st : ModelState n p)
    (X : Matrix (Fin n) (Fin p) ℝ) (y : Fin n → ℝ) : ModelState n p :=
  let γ := fullCoef X y (betaSolve X y)
  let fitted := fittedValues X γ
  let residuals := fun i => y i - fitted i
  { fitUpdateBase st X y with
    bhat := some γ
    fitted := some fitted
    residuals := some residuals
    std_err_est := some (Real.sqrt ((∑ i, residuals i ^ 2) / ((n : ℝ) - p - 1))) }

/-- Embeds the remaining assignments of lines 118-131, made after the second
solve succeeds: covariance matrix `σ̂²(XᵀX)⁻¹` of the full design, standard
errors from its diagonal, t-statistics, and two-sided p-values
`2·T_cdf(−|t|, n−p−1)` (the Student-t CDF `tcdf` is scipy's, passed in as an
oracle). -/
noncomputable def fitUpdateFull (tcdf : ℝ → ℝ → ℝ) {n p : ℕ} (st : ModelState n p)
    (X : Matrix (Fin n) (Fin p) ℝ) (y : Fin n → ℝ) : ModelState n p :=
  let γ := fullCoef X y (betaSolve X y)
  let fitted := fittedValues X γ
  let residuals := fun i => y i - fitted i
  let s := Real.sqrt ((∑ i, residuals i ^ 2) / ((n : ℝ) - p - 1))
  let V := s ^ 2 • ((withOnes X)ᵀ * withOnes X)⁻¹
  let se := fun j => Real.sqrt (V j j)
  let t := fun j => γ j / se j
  { fitUpdateCoef st X y with
    varMat := some V
    std_err_vars := some se
    t_vals := some t
    p_vals := some (fun j => 2 * tcdf (-|t j|) ((n : ℝ) - p - 1)) }

open scoped Classical in
/-- Embeds `_fit` (lines 67-135) for an intercept model as a transition on the
stored state.  The second component is `true` when the fit completes; it is
`false` when one of the two `np.linalg.solve` calls raises `LinAlgError`
(singular system), in which case the first component is the partially updated
state the exception leaves behind. -/
noncomputable def fitStep (tcdf : ℝ → ℝ → ℝ) {n p : ℕ} (st : ModelState n p)
    (X : Matrix (Fin n) (Fin p) ℝ) (y : Fin n → ℝ) : ModelState n p × Bool :=
  if ((centeredX X)ᵀ * centeredX X).det = 0 then (fitUpdateBase st X y, false)
  else if ((withOnes X)ᵀ * withOnes X).det = 0 then (fitUpdateCoef st X y, false)
  else (fitUpdateFull tcdf st X y, true)

/-! ## The no-intercept fit (lines 91-131 with `self.intercept` false) -/

/-- Fit artifacts of a no-intercept fit on an `n × p` design. -/
structure FitResultNoI (n p : ℕ) where
  bhat : Fin p → ℝ
  fitted : Fin n → ℝ
  residuals : Fin n → ℝ
  std_err_est : ℝ
  varMat : Matrix (Fin p) (Fin p) ℝ
  std_err_vars : Fin p → ℝ
  t_vals : Fin p → ℝ
  p_vals : Fin p → ℝ

/-- Embeds `_fit` with `self.intercept` false (lines 91-131): no centering, no
Intercept column, `p = X.shape[1]` (line 108 subtracts nothing), and the df
`n − p − 1` appears both in the residual standard error (line 115) and in the
p-values (line 130). -/
noncomputable def fitNoIntercept (tcdf : ℝ → ℝ → ℝ) {n p : ℕ}
    (X : Matrix (Fin n) (Fin p) ℝ) (y : Fin n → ℝ) : FitResultNoI n p :=
  let bhat := (Xᵀ * X)⁻¹ *ᵥ (Xᵀ *ᵥ y)
  let fitted := X *ᵥ bhat
  let residuals := fun i => y i - fitted i
  let s := Real.sqrt ((∑ i, residuals i ^ 2) / ((n : ℝ) - p - 1))
  let V := s ^ 2 • (Xᵀ * X)⁻¹
  let se := fun j => Real.sqrt (V j j)
  let t := fun j => bhat j / se j
  { bhat := bhat, fitted := fitted, residuals := residuals, std_err_est := s,
    varMat := V, std_err_vars := se, t_vals := t,
    p_vals := fun j => 2 * tcdf (-|t j|) ((n : ℝ) - p - 1) }

/-! ## Interval widths (lines 217-234)

Both width helpers read the fitted state (`n` training rows, covariance matrix
`self.var`, `get_sse()`) and take one new design row `x`; the scipy critical
values `stats.t.ppf(1 − α/2, n − p)` and `stats.f.ppf(1 − α/2, p, n − p)` are
passed in as real numbers. -/

/-- Embeds `(X_new.dot(self.var) * X_new).sum(axis = 1)` (lines 221 and 231)
for one new row `x`: the quadratic form `xᵀ·Var(β̂)·x`. -/
def sYhatSq {p : ℕ} (V : Matrix (Fin p) (Fin p) ℝ) (x : Fin p → ℝ) : ℝ :=
  ∑ j, (∑ k, x k * V k j) * x j

/-- Embeds `_prediction_interval_width` (lines 217-226): with
`mse = get_sse() / (n − p)` and `p = X_new.shape[1]`, the half-width is
`t_crit · sqrt(mse + xᵀ·Var·x)`. -/
noncomputable def predictionIntervalWidth (n p : ℕ) (sse : ℝ)
    (V : Matrix (Fin p) (Fin p) ℝ) (x : Fin p → ℝ) (t_crit : ℝ) : ℝ :=
  t_crit * Real.sqrt (sse / ((n : ℝ) - p) + sYhatSq V x)

/-- Embeds `_confidence_interval_width` (lines 228-234): the Working-Hotelling
half-width `sqrt(p · f_crit) · sqrt(xᵀ·Var·x)` (`W_crit_squared = p · f_crit`
at line 233). -/
noncomputable def confidenceIntervalWidth (p : ℕ) (V : Matrix (Fin p) (Fin p) ℝ)
    (x : Fin p → ℝ) (f_crit : ℝ) : ℝ :=
  Real.sqrt ((p : ℝ) * f_crit) * Real.sqrt (sYhatSq V x)

/-- Quantile function computed by scipy's `stats.t.ppf(q, 2)`: the Student-t
distribution with 2 degrees of freedom has the closed-form CDF
`F(x) = 1/2 · (1 + x / sqrt(x² + 2))`, whose inverse at probability `q` is
`(2q − 1) · sqrt(2 / (1 − (2q−1)²))`. -/
noncomputable def tPpfTwo (q : ℝ) : ℝ :=
  (2 * q - 1) * Real.sqrt (2 / (1 - (2 * q - 1) ^ 2))

/-- Quantile function computed by scipy's `stats.f.ppf(q, 1, 2)`: if
`T ~ t₂` then `T² ~ F(1, 2)`, so the `q`-quantile of `F(1, 2)` is the square
of the `(1 + q)/2`-quantile of `t₂`. -/
noncomputable def fPpfOneTwo (q : ℝ) : ℝ := (tPpfTwo ((1 + q) / 2)) ^ 2

/-! ## Concrete instances used by the counterexamples and witnesses -/

/-- A stand-in Student-t CDF oracle; the claims checked at concrete inputs do
not read the p-values it produces. -/
def tcdfZero : ℝ → ℝ → ℝ := fun _ _ => 0

/-- First training design (one column, two rows, non-constant). -/
def dataX1 : Matrix (Fin 2) (Fin 1) ℝ := !![1; 2]

/-- First training response. -/
def dataY1 : Fin 2 → ℝ := ![1, 2]

/-- Second training design: a constant column, which centering turns into the
zero column, so the centered normal equations are singular. -/
def dataX2 : Matrix (Fin 2) (Fin 1) ℝ := !![3; 3]

/-- Second training response. -/
def dataY2 : Fin 2 → ℝ := ![0, 1]

/-- Design matrix of the width counterexample: one column of ones, three
rows, fitted without an intercept. -/
def dataX3 : Matrix (Fin 3) (Fin 1) ℝ := !![1; 1; 1]

/-- Response of the width counterexample. -/
def dataY3 : Fin 3 → ℝ := ![0, 0, 3]

/-- New design row of the width counterexample. -/
def xNewRow : Fin 1 → ℝ := ![10]

/-- Design matrix of the solver-equivalence witness (two rows, one column). -/
def olsX : Matrix (Fin 2) (Fin 1) ℚ := !![0; 1]

/-- Response of the solver-equivalence witness. -/
def olsY : Fin 2 → ℚ := ![0, 1]

/-- Slope solving the centered normal equations of the witness data. -/
def olsBeta : Fin 1 → ℚ := ![1]

/-! ## Claim C2: r_squared -/

/-- C2: the claim fails on the code, which has the two `adjusted` branches
swapped: `r_squared(adjusted=False)` divides SSE and SST by
`n − len(columns) − 2` and `n − 1` respectively, while `adjusted=True`
returns the plain `1 − SSE/SST`.  On the example dataset
`x=[1,2,3,4,5]`, `y=[2,4,5,4,5]` the default call returns `1/5` whereas
`1 − SSE/SST = 3/5` (the `[0,1]` membership asserted by the claim does hold
for the value the code returns). -/
theorem r_squared_branches_swapped_on_example :
    r_squared exampleXs exampleYs false = 1 / 5
    ∧ 1 - sseOf exampleXs exampleYs / sstoOf exampleYs = 3 / 5
    ∧ r_squared exampleXs exampleYs true = 3 / 5
    ∧ r_squared exampleXs exampleYs false
        ≠ 1 - sseOf exampleXs exampleYs / sstoOf exampleYs
    ∧ 0 ≤ r_squared exampleXs exampleYs false
    ∧ r_squared exampleXs exampleYs false ≤ 1 := by
  refine ⟨?_, ?_, ?_, ?_, ?_, ?_⟩ <;>
    norm_num [r_squared, sseOf, sstoOf, fittedOf, simpleIntercept, slopeOf,
      listMean, exampleXs, exampleYs]

/-! ## Claim C3: predict with interval flags -/

/-- C3: the claim fails on the code.  `predict` performs no mutual-exclusion
check on the two interval flags; instead, every call that requests any
interval — both flags, or exactly one — evaluates the unbound name `y_vals`
at line 171 and dies with a Python `NameError`, which is not the spec's
invalid-input error and attaches no bounds.  Only the plain call returns
predictions (`Intercept + 6·coef = 29/5` on the example). -/
theorem predict_interval_requests_raise_name_error :
    predictSimple exampleXs exampleYs [6] true true
      = Except.error PredictError.nameError_y_vals
    ∧ predictSimple exampleXs exampleYs [6] true false
      = Except.error PredictError.nameError_y_vals
    ∧ predictSimple exampleXs exampleYs [6] false true
      = Except.error PredictError.nameError_y_vals
    ∧ (Except.error PredictError.nameError_y_vals
        ≠ (Except.error PredictError.invalidInput : Except PredictError (List ℚ)))
    ∧ predictSimple exampleXs exampleYs [6] false false = Except.ok [29 / 5] := by
  refine ⟨rfl, rfl, rfl, ?_, ?_⟩
  · intro h
    exact absurd (Except.error.inj h) (by intro h2; cases h2)
  · norm_num [predictSimple, predictPoint, simpleIntercept, slopeOf, listMean,
      exampleXs, exampleYs]

/-! ## Claim C4: SST = SSE + SSR -/

/-- C4: the claim is the intended behaviour but the code's `get_sst` dies:
line 189 indexes the training response frame as `training_y[:, 0]` (a tuple
key with a slice), which pandas rejects with a `TypeError`, so neither
`get_sst` nor `get_ssr` ever returns and the identity cannot be observed.
With the indexing repaired to `.iloc[:, 0]`, SST = 6 on the example fit,
SSE = 12/5, and `SST = SSE + SSR` holds by the very definition of
`get_ssr`. -/
theorem get_sst_raises_type_error_on_example :
    get_sst exampleYs = Except.error PdError.typeError
    ∧ get_ssr exampleXs exampleYs = Except.error PdError.typeError
    ∧ get_sst_fixed exampleYs = 6
    ∧ get_sse exampleXs exampleYs = 12 / 5
    ∧ get_sst_fixed exampleYs
        = get_sse exampleXs exampleYs + get_ssr_fixed exampleXs exampleYs := by
  refine ⟨rfl, rfl, ?_, ?_, ?_⟩
  · norm_num [get_sst_fixed, listMean, exampleYs]
  · norm_num [get_sse, fittedOf, simpleIntercept, slopeOf, listMean,
      exampleXs, exampleYs]
  · simp only [get_ssr_fixed]
    ring

/-! ## Helper lemmas for the categorical encoder -/

theorem dummyName_inj (nm : String) {a b : String}
    (h : dummyName nm a = dummyName nm b) : a = b := by
  have h2 : ((nm ++ "::") ++ a).data = ((nm ++ "::") ++ b).data := by
    simpa [dummyName] using congrArg String.data h
  simp only [String.data_append] at h2
  exact String.ext (List.append_cancel_left h2)

theorem indicator_nonneg (l v : String) : 0 ≤ indicator l v := by
  unfold indicator
  split <;> norm_num

theorem indicator_sum_zero_iff (v : String) (ls : List String) :
    ((ls.map (fun l => indicator l v)).sum = 0) ↔ v ∉ ls := by
  induction ls with
  | nil => simp
  | cons a t ih =>
    simp only [List.map_cons, List.sum_cons, List.mem_cons]
    constructor
    · intro h
      have ht : 0 ≤ (t.map (fun l => indicator l v)).sum := by
        refine List.sum_nonneg ?_
        intro x hx
        obtain ⟨l, _, rfl⟩ := List.mem_map.mp hx
        exact indicator_nonneg l v
      have ha : 0 ≤ indicator a v := indicator_nonneg a v
      have h1 : indicator a v = 0 := by linarith
      have h2 : (t.map (fun l => indicator l v)).sum = 0 := by linarith
      rintro (rfl | hvt)
      · simp [indicator] at h1
      · exact (ih.mp h2) hvt
    · intro h
      have h1 : ¬(v = a) := fun hva => h (Or.inl hva)
      have h2 : v ∉ t := fun hvt => h (Or.inr hvt)
      have ha0 : indicator a v = 0 := by simp [indicator, h1]
      rw [ha0, ih.mpr h2, add_zero]

theorem indicator_sum_nodup (v : String) (ls : List String) (hn : ls.Nodup) :
    (ls.map (fun l => indicator l v)).sum = if v ∈ ls then 1 else 0 := by
  induction ls with
  | nil => simp
  | cons a t ih =>
    rw [List.nodup_cons] at hn
    simp only [List.map_cons, List.sum_cons, List.mem_cons]
    by_cases hva : v = a
    · subst hva
      have h1 : indicator v v = 1 := by simp [indicator]
      rw [h1, ih hn.2, if_neg hn.1]
      simp
    · have h1 : indicator a v = 0 := by simp [indicator, hva]
      rw [h1, ih hn.2, zero_add]
      simp [hva]

theorem getD_map_q (f : String → ℚ) (l : List String) (i : ℕ) (q : ℚ) (d : String)
    (h : i < l.length) : (l.map f).getD i q = f (l.getD i d) := by
  have h2 : i < (l.map f).length := by simpa using h
  rw [List.getD_eq_getElem?_getD, List.getElem?_eq_getElem h2,
      List.getD_eq_getElem?_getD, List.getElem?_eq_getElem h]
  simp

theorem getD_mem_of_lt (l : List String) (i : ℕ) (d : String) (h : i < l.length) :
    l.getD i d ∈ l := by
  rw [List.getD_eq_getElem?_getD, List.getElem?_eq_getElem h]
  simp only [Option.getD_some]
  exact List.getElem_mem h

theorem drop_head_columns (nm : String) (g : String → List ℚ) (h : String)
    (t : List String) (hht : h ∉ t) :
    (((h :: t).map (fun l => (dummyName nm l, g l))).filter
        (fun c => decide (c.1 ≠ dummyName nm ((h :: t).headD ""))))
      = t.map (fun l => (dummyName nm l, g l)) := by
  simp only [List.headD_cons, List.map_cons, List.filter_cons]
  have h1 : (decide (dummyName nm h ≠ dummyName nm h)) = false := by simp
  rw [h1]
  simp only [Bool.false_eq_true, if_false]
  refine List.filter_eq_self.mpr ?_
  intro c hc
  obtain ⟨l, hl, rfl⟩ := List.mem_map.mp hc
  have hlh : l ≠ h := fun e => hht (e ▸ hl)
  simpa using fun e => hlh (dummyName_inj nm e)

/-! ## Claim C5: derived level order and reference-level drop -/

/-- C5: with no registry entry and no explicit level list, the level order is
the sorted list of distinct observed values; `drop_dummy` omits exactly the
first level's column while `drop_dummy = False` keeps one column per level;
each row of the dropped encoding sums to at most 1, and a row holding the
reference (first) level has every retained dummy column equal to 0. -/
theorem categorical_sorted_levels_and_reference_drop
    (nm : String) (data : List String) (hne : data ≠ []) :
    List.Sorted (· ≤ ·) (sortedUnique data)
    ∧ (sortedUnique data).Nodup
    ∧ (∀ v, v ∈ sortedUnique data ↔ v ∈ data)
    ∧ ((extractCategorical [] ⟨nm, none⟩ data false false).1.map Prod.fst
        = (sortedUnique data).map (dummyName nm))
    ∧ ((extractCategorical [] ⟨nm, none⟩ data true false).1
        = (sortedUnique data).tail.map
            (fun l => (dummyName nm l, data.map (indicator l))))
    ∧ (extractCategorical [] ⟨nm, none⟩ data true false).1.length
        = (sortedUnique data).length - 1
    ∧ (∀ i, i < data.length →
        (((extractCategorical [] ⟨nm, none⟩ data true false).1.map
            (fun c => c.2.getD i 0)).sum ≤ 1
         ∧ (data.getD i "" = (sortedUnique data).headD "" →
             ∀ c ∈ (extractCategorical [] ⟨nm, none⟩ data true false).1,
               c.2.getD i 0 = 0))) := by
  have hsorted0 : List.Sorted (fun a b : String => a.toList ≤ b.toList)
      (sortedUnique data) :=
    List.sorted_insertionSort _ data.dedup
  have hsorted : List.Sorted (· ≤ ·) (sortedUnique data) :=
    hsorted0.imp (fun h => String.le_iff_toList_le.mpr h)
  have hnodup : (sortedUnique data).Nodup :=
    ((List.perm_insertionSort _ _).nodup_iff).mpr (List.nodup_dedup data)
  have hmem : ∀ v, v ∈ sortedUnique data ↔ v ∈ data := fun v =>
    ((List.perm_insertionSort _ _).mem_iff).trans List.mem_dedup
  have hlevne : sortedUnique data ≠ [] := by
    intro h0
    cases data with
    | nil => exact hne rfl
    | cons a t =>
      have ha : a ∈ sortedUnique (a :: t) := (hmem a).mpr (by simp)
      rw [h0] at ha
      exact (List.not_mem_nil a) ha
  obtain ⟨h0, t0, hcons⟩ := List.exists_cons_of_ne_nil hlevne
  have hh0t0 : h0 ∉ t0 := by
    have := hnodup
    rw [hcons, List.nodup_cons] at this
    exact this.1
  have ht0nodup : t0.Nodup := by
    have := hnodup
    rw [hcons, List.nodup_cons] at this
    exact this.2
  have hfull : (extractCategorical [] ⟨nm, none⟩ data false false).1
      = (sortedUnique data).map (fun l => (dummyName nm l, data.map (indicator l))) := by
    simp [extractCategorical, lookupRegistry]
  have hdrop : (extractCategorical [] ⟨nm, none⟩ data true false).1
      = (sortedUnique data).tail.map
          (fun l => (dummyName nm l, data.map (indicator l))) := by
    simp only [extractCategorical, lookupRegistry, List.find?_nil, Option.map_none']
    rw [hcons]
    simpa using drop_head_columns nm (fun l => data.map (indicator l)) h0 t0 hh0t0
  refine ⟨hsorted, hnodup, hmem, ?_, hdrop, ?_, ?_⟩
  · rw [hfull, List.map_map]
    rfl
  · rw [hdrop]
    simp [hcons]
  · intro i hi
    have hrow : ((extractCategorical [] ⟨nm, none⟩ data true false).1.map
        (fun c => c.2.getD i 0)).sum
        = if data.getD i "" ∈ (sortedUnique data).tail then (1 : ℚ) else 0 := by
      rw [hdrop, List.map_map]
      have hcong : ((sortedUnique data).tail.map
            ((fun c : String × List ℚ => c.2.getD i 0)
              ∘ fun l => (dummyName nm l, data.map (indicator l))))
          = (sortedUnique data).tail.map (fun l => indicator l (data.getD i "")) := by
        refine List.map_congr_left ?_
        intro l _
        exact getD_map_q (indicator l) data i 0 "" hi
      rw [hcong]
      refine indicator_sum_nodup _ _ ?_
      rw [hcons]
      exact ht0nodup
    constructor
    · rw [hrow]
      split <;> norm_num
    · intro hv c hc
      rw [hdrop] at hc
      obtain ⟨l, hl, rfl⟩ := List.mem_map.mp hc
      rw [getD_map_q (indicator l) data i 0 "" hi]
      have hlt0 : l ∈ t0 := by
        rw [hcons] at hl
        exact hl
      have hvh0 : data.getD i "" = h0 := by
        rw [hcons] at hv
        exact hv
      have hne2 : data.getD i "" ≠ l := by
        rw [hvh0]
        intro e
        exact hh0t0 (e ▸ hlt0)
      unfold indicator
      rw [if_neg hne2]

/-! ## Claim C6: explicit level lists and the catch-all column -/

theorem extractCat_explicit_with_other (nm : String) (explicit data : List String)
    (h : (data.any fun v => decide (v ∉ explicit.filter (fun l => decide (l ∈ data)))) = true) :
    (extractCategorical [] ⟨nm, some explicit⟩ data false false).1
      = (explicit.filter (fun l => decide (l ∈ data))).map
          (fun l => (dummyName nm l, data.map (indicator l)))
        ++ [(dummyName nm "~other~",
             data.map (fun v =>
               if ((explicit.filter (fun l => decide (l ∈ data))).map
                    (fun l => indicator l v)).sum = 0 then 1 else 0))] := by
  have hprop : ∃ x ∈ data, x ∉ explicit ∨ x ∉ data := by
    rw [List.any_eq_true] at h
    obtain ⟨v, hv, hd⟩ := h
    rw [decide_eq_true_eq] at hd
    refine ⟨v, hv, ?_⟩
    by_contra hcon
    push_neg at hcon
    exact hd (List.mem_filter.mpr ⟨hcon.1, by simpa using hcon.2⟩)
  simp [extractCategorical, lookupRegistry, reconciledLevels, hprop, List.dropLast_concat]

theorem extractCat_explicit_no_other (nm : String) (explicit data : List String)
    (h : (data.any fun v => decide (v ∉ explicit.filter (fun l => decide (l ∈ data)))) = false) :
    (extractCategorical [] ⟨nm, some explicit⟩ data false false).1
      = (explicit.filter (fun l => decide (l ∈ data))).map
          (fun l => (dummyName nm l, data.map (indicator l))) := by
  have hprop : ¬∃ x ∈ data, x ∉ explicit ∨ x ∉ data := by
    rw [List.any_eq_false] at h
    rintro ⟨v, hv, hd⟩
    have hv2 := h v hv
    rw [decide_eq_true_eq, not_not] at hv2
    have hv3 := List.mem_filter.mp hv2
    rcases hd with hd | hd
    · exact hd hv3.1
    · exact hd hv
  simp [extractCategorical, lookupRegistry, reconciledLevels, hprop]

/-- C6: with an explicit level list, listed levels absent from the data are
removed and never encoded (no column carries their name); when the data holds
values outside the list, a single `~other~` catch-all column is appended
whose value at each row is 1 exactly when that row's observed level is not in
the explicit list and 0 otherwise; when every observed value is listed, no
catch-all column is added. -/
theorem explicit_levels_prune_and_other_column
    (nm : String) (explicit data : List String)
    (hclean : "~other~" ∉ explicit) :
    (∀ l ∈ explicit, l ∉ data →
       dummyName nm l ∉
         ((extractCategorical [] ⟨nm, some explicit⟩ data false false).1.map Prod.fst))
    ∧ ((∃ v ∈ data, v ∉ explicit) →
        ((extractCategorical [] ⟨nm, some explicit⟩ data false false).1
          = (explicit.filter (fun l => decide (l ∈ data))).map
              (fun l => (dummyName nm l, data.map (indicator l)))
            ++ [(dummyName nm "~other~",
                 data.map (fun v =>
                   if ((explicit.filter (fun l => decide (l ∈ data))).map
                        (fun l => indicator l v)).sum = 0 then 1 else 0))]
         ∧ ∀ i, i < data.length →
             (data.map (fun v =>
                if ((explicit.filter (fun l => decide (l ∈ data))).map
                     (fun l => indicator l v)).sum = 0 then (1 : ℚ) else 0)).getD i 0
               = if data.getD i "" ∈ explicit then (0 : ℚ) else 1))
    ∧ ((∀ v ∈ data, v ∈ explicit) →
        (extractCategorical [] ⟨nm, some explicit⟩ data false false).1
          = (explicit.filter (fun l => decide (l ∈ data))).map
              (fun l => (dummyName nm l, data.map (indicator l)))) := by
  refine ⟨?_, ?_, ?_⟩
  · intro l hl hld hmem
    have hlfilt : l ∉ explicit.filter (fun l => decide (l ∈ data)) := by
      intro hin
      exact hld (by simpa using (List.mem_filter.mp hin).2)
    rcases hflag : (data.any fun v =>
        decide (v ∉ explicit.filter (fun l => decide (l ∈ data)))) with _ | _
    · rw [extractCat_explicit_no_other nm explicit data hflag] at hmem
      rw [List.map_map] at hmem
      obtain ⟨l', hl', he⟩ := List.mem_map.mp hmem
      exact hlfilt ((dummyName_inj nm he.symm) ▸ hl')
    · rw [extractCat_explicit_with_other nm explicit data hflag] at hmem
      rw [List.map_append, List.map_map] at hmem
      rcases List.mem_append.mp hmem with hin | hin
      · obtain ⟨l', hl', he⟩ := List.mem_map.mp hin
        exact hlfilt ((dummyName_inj nm he.symm) ▸ hl')
      · have : dummyName nm l = dummyName nm "~other~" := by simpa using hin
        exact hclean ((dummyName_inj nm this) ▸ hl)
  · rintro ⟨v, hvdata, hvnot⟩
    have hflag : (data.any fun v =>
        decide (v ∉ explicit.filter (fun l => decide (l ∈ data)))) = true := by
      rw [List.any_eq_true]
      refine ⟨v, hvdata, ?_⟩
      simp only [decide_eq_true_eq]
      intro hin
      exact hvnot (List.mem_filter.mp hin).1
    refine ⟨extractCat_explicit_with_other nm explicit data hflag, ?_⟩
    intro i hi
    simp only [getD_map_q (fun v =>
      if ((explicit.filter (fun l => decide (l ∈ data))).map
           (fun l => indicator l v)).sum = 0 then (1 : ℚ) else 0) data i 0 "" hi]
    by_cases hm : data.getD i "" ∈ explicit
    · have hinf : data.getD i "" ∈ explicit.filter (fun l => decide (l ∈ data)) :=
        List.mem_filter.mpr ⟨hm, by simpa using getD_mem_of_lt data i "" hi⟩
      have : ¬(((explicit.filter (fun l => decide (l ∈ data))).map
          (fun l => indicator l (data.getD i ""))).sum = 0) := by
        rw [indicator_sum_zero_iff]
        simpa using hinf
      rw [if_neg this, if_pos hm]
    · have hninf : data.getD i "" ∉ explicit.filter (fun l => decide (l ∈ data)) := by
        intro hin
        exact hm (List.mem_filter.mp hin).1
      have : (((explicit.filter (fun l => decide (l ∈ data))).map
          (fun l => indicator l (data.getD i ""))).sum = 0) :=
        (indicator_sum_zero_iff _ _).mpr hninf
      rw [if_pos this, if_neg hm]
  · intro hall
    have hflag : (data.any fun v =>
        decide (v ∉ explicit.filter (fun l => decide (l ∈ data)))) = false := by
      rw [List.any_eq_false]
      intro v hvdata
      simp only [decide_eq_true_eq, not_not]
      exact List.mem_filter.mpr ⟨hall v hvdata, by simpa using hvdata⟩
    exact extractCat_explicit_no_other nm explicit data hflag

/-! ## Claim C9: encoding mutates the term's level list -/

/-- C9 (amended): when a categorical term carries an explicit level list and
the registry has no entry for it, `extract_columns` rebinds `levels` to the
very list object stored on the term and mutates it in place, so after the
call the term's level list is the reconciled list (absent listed levels
removed, `~other~` appended when the data has unlisted values) whatever the
flags; the registry gains the resolved list exactly when `update_levels` is
set, keyed by the term's display name. -/
theorem encode_rewrites_explicit_term_levels
    (registry : Registry) (nm : String) (ls data : List String)
    (drop update : Bool) (hreg : lookupRegistry registry nm = none) :
    (extractCategorical registry ⟨nm, some ls⟩ data drop update).2.1
      = ⟨nm, some (reconciledLevels ls data).1⟩
    ∧ (update = true →
        (extractCategorical registry ⟨nm, some ls⟩ data drop update).2.2
          = registryInsert registry nm (reconciledLevels ls data).1)
    ∧ (update = false →
        (extractCategorical registry ⟨nm, some ls⟩ data drop update).2.2 = registry) := by
  refine ⟨?_, ?_, ?_⟩
  · simp [extractCategorical, hreg]
  · rintro rfl
    simp [extractCategorical, hreg, CatTerm.displayName]
  · rintro rfl
    simp [extractCategorical, hreg]

/-- Counterexample to C9 as stated: encoding the term `x` with explicit
levels `[A, B]` against data `[A, B, C]`, with `update_registry` off, leaves
the term's stored level list as `[A, B, ~other~]` — the term was mutated even
though the claim says only the registry may change, and here not even the
registry was written. -/
theorem encode_mutates_term_level_list_example :
    (extractCategorical [] ⟨"x", some ["A", "B"]⟩ ["A", "B", "C"] false false).2.1.levels
      = some ["A", "B", "~other~"]
    ∧ (extractCategorical [] ⟨"x", some ["A", "B"]⟩ ["A", "B", "C"] false false).2.1.levels
      ≠ some ["A", "B"]
    ∧ (extractCategorical [] ⟨"x", some ["A", "B"]⟩ ["A", "B", "C"] false false).2.2
      = [] := by
  refine ⟨by decide, by decide, by decide⟩

/-- Witness for C5 on data `[B, A, C, A]` (observed levels `{A, B, C}`). -/
theorem categorical_sorted_levels_and_reference_drop_witness :
    (["B", "A", "C", "A"] : List String) ≠ []
    ∧ (List.Sorted (· ≤ ·) (sortedUnique ["B", "A", "C", "A"])
       ∧ (sortedUnique ["B", "A", "C", "A"]).Nodup
       ∧ (∀ v, v ∈ sortedUnique ["B", "A", "C", "A"] ↔ v ∈ (["B", "A", "C", "A"] : List String))
       ∧ ((extractCategorical [] ⟨"cat", none⟩ ["B", "A", "C", "A"] false false).1.map Prod.fst
           = (sortedUnique ["B", "A", "C", "A"]).map (dummyName "cat"))
       ∧ ((extractCategorical [] ⟨"cat", none⟩ ["B", "A", "C", "A"] true false).1
           = (sortedUnique ["B", "A", "C", "A"]).tail.map
               (fun l => (dummyName "cat" l, (["B", "A", "C", "A"] : List String).map (indicator l))))
       ∧ (extractCategorical [] ⟨"cat", none⟩ ["B", "A", "C", "A"] true false).1.length
           = (sortedUnique ["B", "A", "C", "A"]).length - 1
       ∧ (∀ i, i < (["B", "A", "C", "A"] : List String).length →
           (((extractCategorical [] ⟨"cat", none⟩ ["B", "A", "C", "A"] true false).1.map
               (fun c => c.2.getD i 0)).sum ≤ 1
            ∧ ((["B", "A", "C", "A"] : List String).getD i ""
                  = (sortedUnique ["B", "A", "C", "A"]).headD "" →
                ∀ c ∈ (extractCategorical [] ⟨"cat", none⟩ ["B", "A", "C", "A"] true false).1,
                  c.2.getD i 0 = 0))))
    ∧ (extractCategorical [] ⟨"cat", none⟩ ["B", "A", "C", "A"] true false).1.length = 2 :=
  ⟨by decide,
   categorical_sorted_levels_and_reference_drop "cat" ["B", "A", "C", "A"] (by decide),
   by decide⟩

/-- Witness for C6 with explicit levels `[A, B]` against data `[A, B, C]`:
the encoding carries a third `~other~` column that is 1 exactly on the `C`
row. -/
theorem explicit_levels_prune_and_other_column_witness :
    ("~other~" ∉ (["A", "B"] : List String))
    ∧ ((∀ l ∈ (["A", "B"] : List String), l ∉ (["A", "B", "C"] : List String) →
         dummyName "x" l ∉
           ((extractCategorical [] ⟨"x", some ["A", "B"]⟩ ["A", "B", "C"] false false).1.map Prod.fst))
       ∧ ((∃ v ∈ (["A", "B", "C"] : List String), v ∉ (["A", "B"] : List String)) →
           ((extractCategorical [] ⟨"x", some ["A", "B"]⟩ ["A", "B", "C"] false false).1
             = ((["A", "B"] : List String).filter
                  (fun l => decide (l ∈ (["A", "B", "C"] : List String)))).map
                 (fun l => (dummyName "x" l, (["A", "B", "C"] : List String).map (indicator l)))
               ++ [(dummyName "x" "~other~",
                    (["A", "B", "C"] : List String).map (fun v =>
                      if (((["A", "B"] : List String).filter
                            (fun l => decide (l ∈ (["A", "B", "C"] : List String)))).map
                           (fun l => indicator l v)).sum = 0 then 1 else 0))]
            ∧ ∀ i, i < (["A", "B", "C"] : List String).length →
                ((["A", "B", "C"] : List String).map (fun v =>
                   if (((["A", "B"] : List String).filter
                         (fun l => decide (l ∈ (["A", "B", "C"] : List String)))).map
                        (fun l => indicator l v)).sum = 0 then (1 : ℚ) else 0)).getD i 0
                  = if (["A", "B", "C"] : List String).getD i "" ∈ (["A", "B"] : List String)
                    then (0 : ℚ) else 1))
       ∧ ((∀ v ∈ (["A", "B", "C"] : List String), v ∈ (["A", "B"] : List String)) →
           (extractCategorical [] ⟨"x", some ["A", "B"]⟩ ["A", "B", "C"] false false).1
             = ((["A", "B"] : List String).filter
                  (fun l => decide (l ∈ (["A", "B", "C"] : List String)))).map
                 (fun l => (dummyName "x" l, (["A", "B", "C"] : List String).map (indicator l))))) :=
  ⟨by decide, explicit_levels_prune_and_other_column "x" ["A", "B"] ["A", "B", "C"] (by decide)⟩

/-- Witness for the amended C9 with explicit levels `[A, B]` against data
`[A, B, C]` and `update_levels` on: the reconciled list `[A, B, ~other~]` is
written both onto the term and into the registry. -/
theorem encode_rewrites_explicit_term_levels_witness :
    lookupRegistry [] "x" = none
    ∧ ((extractCategorical [] ⟨"x", some ["A", "B"]⟩ ["A", "B", "C"] false true).2.1
        = ⟨"x", some (reconciledLevels ["A", "B"] ["A", "B", "C"]).1⟩
       ∧ (true = true →
           (extractCategorical [] ⟨"x", some ["A", "B"]⟩ ["A", "B", "C"] false true).2.2
             = registryInsert [] "x" (reconciledLevels ["A", "B"] ["A", "B", "C"]).1)
       ∧ (true = false →
           (extractCategorical [] ⟨"x", some ["A", "B"]⟩ ["A", "B", "C"] false true).2.2 = [])) :=
  ⟨rfl, encode_rewrites_explicit_term_levels [] "x" ["A", "B"] ["A", "B", "C"] false true rfl⟩

/-! ## Claim C8: fit atomicity and singular systems -/

theorem fitStep_singular_first (tcdf : ℝ → ℝ → ℝ) {n p : ℕ} (st : ModelState n p)
    (X : Matrix (Fin n) (Fin p) ℝ) (y : Fin n → ℝ)
    (h : ((centeredX X)ᵀ * centeredX X).det = 0) :
    fitStep tcdf st X y = (fitUpdateBase st X y, false) := by
  unfold fitStep
  rw [if_pos h]

theorem fitStep_sets_training_x (tcdf : ℝ → ℝ → ℝ) {n p : ℕ} (st : ModelState n p)
    (X : Matrix (Fin n) (Fin p) ℝ) (y : Fin n → ℝ) :
    (fitStep tcdf st X y).1.training_x = some X := by
  unfold fitStep
  split
  · rfl
  split
  · rfl
  · rfl

theorem dataX2_centered_det_zero : ((centeredX dataX2)ᵀ * centeredX dataX2).det = 0 := by
  have hc : ∀ i, centeredX dataX2 i 0 = 0 := by
    intro i
    fin_cases i <;>
      norm_num [centeredX, colMeans, dataX2, Fin.sum_univ_two]
  rw [Matrix.det_fin_one, Matrix.mul_apply, Fin.sum_univ_two]
  simp only [Matrix.transpose_apply]
  rw [hc 0, hc 1]
  norm_num

/-- C8 (amended): on a rank-deficient design the first `np.linalg.solve` call
raises a singular-system error, but by then `_fit` has already overwritten the
level registry, the stored training data, the design matrix, the response and
their means; only the coefficient and inference fields (`bhat`, `fitted`,
`residuals`, `std_err_est`, `var`, `std_err_vars`, `t_vals`, `p_vals`) from
the previous successful fit survive, so a partial update is observable. -/
theorem singular_fit_partial_state_update (tcdf : ℝ → ℝ → ℝ) {n p : ℕ}
    (st : ModelState n p) (X : Matrix (Fin n) (Fin p) ℝ) (y : Fin n → ℝ)
    (h : ((centeredX X)ᵀ * centeredX X).det = 0) :
    fitStep tcdf st X y = (fitUpdateBase st X y, false)
    ∧ (fitUpdateBase st X y).bhat = st.bhat
    ∧ (fitUpdateBase st X y).fitted = st.fitted
    ∧ (fitUpdateBase st X y).residuals = st.residuals
    ∧ (fitUpdateBase st X y).std_err_est = st.std_err_est
    ∧ (fitUpdateBase st X y).varMat = st.varMat
    ∧ (fitUpdateBase st X y).std_err_vars = st.std_err_vars
    ∧ (fitUpdateBase st X y).t_vals = st.t_vals
    ∧ (fitUpdateBase st X y).p_vals = st.p_vals
    ∧ (fitUpdateBase st X y).categorical_levels = []
    ∧ (fitUpdateBase st X y).training_x = some X
    ∧ (fitUpdateBase st X y).training_y = some y :=
  ⟨fitStep_singular_first tcdf st X y h,
   rfl, rfl, rfl, rfl, rfl, rfl, rfl, rfl, rfl, rfl, rfl⟩

/-- Witness for the amended C8: the constant design column `dataX2` centers to
the zero column, so the centered normal equations are singular. -/
theorem singular_fit_partial_state_update_witness :
    ((centeredX dataX2)ᵀ * centeredX dataX2).det = 0
    ∧ (fitStep tcdfZero (ModelState.empty 2 1) dataX2 dataY2
        = (fitUpdateBase (ModelState.empty 2 1) dataX2 dataY2, false)
       ∧ (fitUpdateBase (ModelState.empty 2 1) dataX2 dataY2).bhat
          = (ModelState.empty 2 1).bhat
       ∧ (fitUpdateBase (ModelState.empty 2 1) dataX2 dataY2).fitted
          = (ModelState.empty 2 1).fitted
       ∧ (fitUpdateBase (ModelState.empty 2 1) dataX2 dataY2).residuals
          = (ModelState.empty 2 1).residuals
       ∧ (fitUpdateBase (ModelState.empty 2 1) dataX2 dataY2).std_err_est
          = (ModelState.empty 2 1).std_err_est
       ∧ (fitUpdateBase (ModelState.empty 2 1) dataX2 dataY2).varMat
          = (ModelState.empty 2 1).varMat
       ∧ (fitUpdateBase (ModelState.empty 2 1) dataX2 dataY2).std_err_vars
          = (ModelState.empty 2 1).std_err_vars
       ∧ (fitUpdateBase (ModelState.empty 2 1) dataX2 dataY2).t_vals
          = (ModelState.empty 2 1).t_vals
       ∧ (fitUpdateBase (ModelState.empty 2 1) dataX2 dataY2).p_vals
          = (ModelState.empty 2 1).p_vals
       ∧ (fitUpdateBase (ModelState.empty 2 1) dataX2 dataY2).categorical_levels = []
       ∧ (fitUpdateBase (ModelState.empty 2 1) dataX2 dataY2).training_x = some dataX2
       ∧ (fitUpdateBase (ModelState.empty 2 1) dataX2 dataY2).training_y = some dataY2) :=
  ⟨dataX2_centered_det_zero,
   singular_fit_partial_state_update tcdfZero (ModelState.empty 2 1) dataX2 dataY2
     dataX2_centered_det_zero⟩

/-- Counterexample to C8 as stated: fit successfully on `dataX1`, then refit
with the collinear (constant) design `dataX2`.  The second fit raises the
singular-system error, yet the stored design matrix has already been replaced
by `dataX2`, while the coefficients still come from the first fit — the
previous fitted state did not remain unchanged and a partial update is
observable. -/
theorem singular_refit_overwrites_training_state :
    (fitStep tcdfZero ((fitStep tcdfZero (ModelState.empty 2 1) dataX1 dataY1).1)
        dataX2 dataY2).2 = false
    ∧ (fitStep tcdfZero ((fitStep tcdfZero (ModelState.empty 2 1) dataX1 dataY1).1)
        dataX2 dataY2).1.training_x
      ≠ ((fitStep tcdfZero (ModelState.empty 2 1) dataX1 dataY1).1).training_x
    ∧ (fitStep tcdfZero ((fitStep tcdfZero (ModelState.empty 2 1) dataX1 dataY1).1)
        dataX2 dataY2).1.bhat
      = ((fitStep tcdfZero (ModelState.empty 2 1) dataX1 dataY1).1).bhat := by
  have hstep := fitStep_singular_first tcdfZero
    ((fitStep tcdfZero (ModelState.empty 2 1) dataX1 dataY1).1) dataX2 dataY2
    dataX2_centered_det_zero
  refine ⟨by rw [hstep], ?_, by rw [hstep]; rfl⟩
  intro hc
  rw [hstep] at hc
  have h1 : (fitUpdateBase ((fitStep tcdfZero (ModelState.empty 2 1) dataX1 dataY1).1)
      dataX2 dataY2).training_x = some dataX2 := rfl
  have h2 : ((fitStep tcdfZero (ModelState.empty 2 1) dataX1 dataY1).1).training_x
      = some dataX1 := fitStep_sets_training_x tcdfZero (ModelState.empty 2 1) dataX1 dataY1
  rw [h1, h2] at hc
  have h3 : dataX2 = dataX1 := Option.some.inj hc
  have h4 := congrFun (congrFun h3 0) 0
  norm_num [dataX1, dataX2] at h4

/-! ## Claim C10: degrees of freedom shared by σ̂ and the p-values -/

/-- C10: both with and without an intercept, the residual-standard-error
divisor (line 115) and the p-value degrees of freedom (line 130) are the same
`n − p − 1` with `p` the number of non-intercept design columns (line 108);
in particular a no-intercept fit on an `n × p` design divides by `n − p − 1`,
not `n − p`, even though only `p` coefficients are estimated. -/
theorem residual_df_consistent (tcdf : ℝ → ℝ → ℝ) {n p : ℕ}
    (X : Matrix (Fin n) (Fin p) ℝ) (y : Fin n → ℝ) (hdf : 0 < (n : ℝ) - p - 1) :
    ((fitNoIntercept tcdf X y).std_err_est ^ 2
        = (∑ i, (fitNoIntercept tcdf X y).residuals i ^ 2) / ((n : ℝ) - p - 1))
    ∧ (∀ j, (fitNoIntercept tcdf X y).p_vals j
        = 2 * tcdf (-|(fitNoIntercept tcdf X y).t_vals j|) ((n : ℝ) - p - 1))
    ∧ ((n : ℝ) - p - 1 ≠ (n : ℝ) - p)
    ∧ (∀ st : ModelState n p, ∃ rs : Fin n → ℝ, ∃ tv : Fin (p + 1) → ℝ,
        (fitUpdateFull tcdf st X y).residuals = some rs
        ∧ (fitUpdateFull tcdf st X y).std_err_est
            = some (Real.sqrt ((∑ i, rs i ^ 2) / ((n : ℝ) - p - 1)))
        ∧ (fitUpdateFull tcdf st X y).t_vals = some tv
        ∧ (fitUpdateFull tcdf st X y).p_vals
            = some (fun j => 2 * tcdf (-|tv j|) ((n : ℝ) - p - 1))) := by
  refine ⟨?_, fun j => rfl, by intro h; linarith, ?_⟩
  · refine Real.sq_sqrt ?_
    refine div_nonneg ?_ (le_of_lt hdf)
    exact Finset.sum_nonneg fun i _ => sq_nonneg _
  · intro st
    exact ⟨_, _, rfl, rfl, rfl, rfl⟩

/-- Witness for C10 at the concrete no-intercept fit on `dataX3`, `dataY3`
(`n = 3`, `p = 1`, so the divisor is `1 = 3 − 1 − 1`, not `2 = 3 − 1`). -/
theorem residual_df_consistent_witness :
    (0 < ((3 : ℕ) : ℝ) - (1 : ℕ) - 1)
    ∧ (((fitNoIntercept tcdfZero dataX3 dataY3).std_err_est ^ 2
          = (∑ i, (fitNoIntercept tcdfZero dataX3 dataY3).residuals i ^ 2)
              / (((3 : ℕ) : ℝ) - (1 : ℕ) - 1))
       ∧ (∀ j, (fitNoIntercept tcdfZero dataX3 dataY3).p_vals j
           = 2 * tcdfZero (-|(fitNoIntercept tcdfZero dataX3 dataY3).t_vals j|)
               (((3 : ℕ) : ℝ) - (1 : ℕ) - 1))
       ∧ (((3 : ℕ) : ℝ) - (1 : ℕ) - 1 ≠ ((3 : ℕ) : ℝ) - (1 : ℕ))
       ∧ (∀ st : ModelState 3 1, ∃ rs : Fin 3 → ℝ, ∃ tv : Fin 2 → ℝ,
           (fitUpdateFull tcdfZero st dataX3 dataY3).residuals = some rs
           ∧ (fitUpdateFull tcdfZero st dataX3 dataY3).std_err_est
               = some (Real.sqrt ((∑ i, rs i ^ 2) / (((3 : ℕ) : ℝ) - (1 : ℕ) - 1)))
           ∧ (fitUpdateFull tcdfZero st dataX3 dataY3).t_vals = some tv
           ∧ (fitUpdateFull tcdfZero st dataX3 dataY3).p_vals
               = some (fun j => 2 * tcdfZero (-|tv j|) (((3 : ℕ) : ℝ) - (1 : ℕ) - 1)))) :=
  ⟨by norm_num,
   residual_df_consistent tcdfZero dataX3 dataY3 (by norm_num)⟩

/-! ## Claim C7: prediction vs confidence interval widths -/

theorem inv_fin_one_apply (A : Matrix (Fin 1) (Fin 1) ℝ) : A⁻¹ 0 0 = (A 0 0)⁻¹ := by
  rw [Matrix.inv_def, Matrix.adjugate_fin_one, Matrix.det_fin_one, Ring.inverse_eq_inv]
  simp

theorem fitX3_beta_eval : ((dataX3ᵀ * dataX3)⁻¹ *ᵥ (dataX3ᵀ *ᵥ dataY3)) 0 = 1 := by
  rw [Matrix.mulVec, Matrix.dotProduct, Fin.sum_univ_one, inv_fin_one_apply]
  rw [Matrix.mul_apply]
  rw [Matrix.mulVec, Matrix.dotProduct]
  norm_num [dataX3, dataY3, Fin.sum_univ_three, Matrix.transpose_apply]

theorem fitX3_fitted_eval (i : Fin 3) :
    (dataX3 *ᵥ ((dataX3ᵀ * dataX3)⁻¹ *ᵥ (dataX3ᵀ *ᵥ dataY3))) i = 1 := by
  rw [Matrix.mulVec, Matrix.dotProduct, Fin.sum_univ_one, fitX3_beta_eval]
  fin_cases i <;> norm_num [dataX3]

theorem fitX3_residual_sum :
    (∑ i, (fitNoIntercept tcdfZero dataX3 dataY3).residuals i ^ 2) = 6 := by
  have h0 : ∀ i, (fitNoIntercept tcdfZero dataX3 dataY3).residuals i
      = dataY3 i - (dataX3 *ᵥ ((dataX3ᵀ * dataX3)⁻¹ *ᵥ (dataX3ᵀ *ᵥ dataY3))) i :=
    fun i => rfl
  rw [Fin.sum_univ_three, h0 0, h0 1, h0 2,
      fitX3_fitted_eval 0, fitX3_fitted_eval 1, fitX3_fitted_eval 2]
  norm_num [dataY3]

theorem fitX3_gram_entry : (dataX3ᵀ * dataX3) 0 0 = 3 := by
  rw [Matrix.mul_apply]
  norm_num [dataX3, Fin.sum_univ_three, Matrix.transpose_apply]

theorem fitX3_varMat_entry : (fitNoIntercept tcdfZero dataX3 dataY3).varMat 0 0 = 2 := by
  show ((Real.sqrt ((∑ i, (fitNoIntercept tcdfZero dataX3 dataY3).residuals i ^ 2)
      / ((3 : ℕ) - (1 : ℕ) - 1 : ℝ))) ^ 2 • (dataX3ᵀ * dataX3)⁻¹) 0 0 = 2
  rw [Matrix.smul_apply, Real.sq_sqrt, fitX3_residual_sum, inv_fin_one_apply,
      fitX3_gram_entry]
  · norm_num
  · rw [fitX3_residual_sum]
    norm_num

theorem fitX3_syhat_eval :
    sYhatSq (fitNoIntercept tcdfZero dataX3 dataY3).varMat xNewRow = 200 := by
  unfold sYhatSq
  rw [Fin.sum_univ_one, Fin.sum_univ_one, fitX3_varMat_entry]
  norm_num [xNewRow]

/-- C7 (amended): with nonnegative critical values, the prediction-interval
half-width at `x` is at least the confidence-band half-width at `x` exactly
when `t_crit² · (MSE + xᵀ·Var·x) ≥ p · F_crit · xᵀ·Var·x`; the code takes
`F_crit` at `p` numerator degrees of freedom and at the `1 − α/2` quantile,
so `sqrt(p·F_crit)` can exceed `t_crit`, and when `MSE` is small relative to
`xᵀ·Var·x` the claimed inequality fails (see the counterexample). -/
theorem interval_width_comparison_iff (n p : ℕ) (sse : ℝ)
    (V : Matrix (Fin p) (Fin p) ℝ) (x : Fin p → ℝ) (t_crit f_crit : ℝ)
    (ht : 0 ≤ t_crit) (hmse : 0 ≤ sse / ((n : ℝ) - p)) (hs : 0 ≤ sYhatSq V x) :
    (confidenceIntervalWidth p V x f_crit ≤ predictionIntervalWidth n p sse V x t_crit
      ↔ (p : ℝ) * f_crit * sYhatSq V x
          ≤ t_crit ^ 2 * (sse / ((n : ℝ) - p) + sYhatSq V x)) := by
  unfold confidenceIntervalWidth predictionIntervalWidth
  rw [← Real.sqrt_mul' ((p : ℝ) * f_crit) hs]
  have hm : (0 : ℝ) ≤ sse / ((n : ℝ) - p) + sYhatSq V x := by linarith
  have hpred : t_crit * Real.sqrt (sse / ((n : ℝ) - p) + sYhatSq V x)
      = Real.sqrt (t_crit ^ 2 * (sse / ((n : ℝ) - p) + sYhatSq V x)) := by
    rw [Real.sqrt_mul (sq_nonneg t_crit), Real.sqrt_sq ht]
  rw [hpred]
  exact Real.sqrt_le_sqrt_iff (mul_nonneg (sq_nonneg t_crit) hm)

/-- Witness for the amended C7 at the no-intercept fit on `dataX3`, `dataY3`
with unit critical values. -/
theorem interval_width_comparison_iff_witness :
    ((0 : ℝ) ≤ 1 ∧ (0 : ℝ) ≤ 6 / (((3 : ℕ) : ℝ) - ((1 : ℕ) : ℝ))
      ∧ 0 ≤ sYhatSq (fitNoIntercept tcdfZero dataX3 dataY3).varMat xNewRow)
    ∧ (confidenceIntervalWidth 1 (fitNoIntercept tcdfZero dataX3 dataY3).varMat
          xNewRow 1
        ≤ predictionIntervalWidth 3 1 6
            (fitNoIntercept tcdfZero dataX3 dataY3).varMat xNewRow 1
      ↔ ((1 : ℕ) : ℝ) * 1
            * sYhatSq (fitNoIntercept tcdfZero dataX3 dataY3).varMat xNewRow
          ≤ 1 ^ 2 * (6 / (((3 : ℕ) : ℝ) - ((1 : ℕ) : ℝ))
              + sYhatSq (fitNoIntercept tcdfZero dataX3 dataY3).varMat xNewRow)) :=
  ⟨⟨by norm_num, by norm_num, by rw [fitX3_syhat_eval]; norm_num⟩,
   interval_width_comparison_iff 3 1 6 (fitNoIntercept tcdfZero dataX3 dataY3).varMat
     xNewRow 1 1 (by norm_num) (by norm_num)
     (by rw [fitX3_syhat_eval]; norm_num)⟩

/-- Counterexample to C7 as stated: for the no-intercept fit on the design
`[1;1;1]` with response `[0,0,3]` (`n = 3`, `p = 1`, `SSE = 6`,
`Var(β̂) = [[2]]`), at the new point `x = 10` with `α = 0.05` the
prediction-interval half-width `t₂ppf(0.975)·sqrt(3 + 200) ≈ 4.30·14.25`
is strictly smaller than the confidence-band half-width
`sqrt(1·F(1,2)ppf(0.975))·sqrt(200) ≈ 6.21·14.14`. -/
theorem prediction_width_below_confidence_width_example :
    predictionIntervalWidth 3 1
        (∑ i, (fitNoIntercept tcdfZero dataX3 dataY3).residuals i ^ 2)
        (fitNoIntercept tcdfZero dataX3 dataY3).varMat xNewRow
        (tPpfTwo (1 - 0.05 / 2))
      < confidenceIntervalWidth 1 (fitNoIntercept tcdfZero dataX3 dataY3).varMat
        xNewRow (fPpfOneTwo (1 - 0.05 / 2)) := by
  have hpred : predictionIntervalWidth 3 1
      (∑ i, (fitNoIntercept tcdfZero dataX3 dataY3).residuals i ^ 2)
      (fitNoIntercept tcdfZero dataX3 dataY3).varMat xNewRow
      (tPpfTwo (1 - 0.05 / 2))
      = (19 / 20) * Real.sqrt (800 / 39) * Real.sqrt 203 := by
    unfold predictionIntervalWidth tPpfTwo
    rw [fitX3_residual_sum, fitX3_syhat_eval]
    norm_num
  have hconf : confidenceIntervalWidth 1
      (fitNoIntercept tcdfZero dataX3 dataY3).varMat xNewRow
      (fPpfOneTwo (1 - 0.05 / 2))
      = Real.sqrt (3042 / 79) * Real.sqrt 200 := by
    unfold confidenceIntervalWidth
    rw [fitX3_syhat_eval]
    have hfv : fPpfOneTwo (1 - 0.05 / 2) = 3042 / 79 := by
      unfold fPpfOneTwo tPpfTwo
      rw [mul_pow]
      rw [show (2 * ((1 + (1 - 0.05 / 2)) / 2) - 1 : ℝ) = 39 / 40 by norm_num]
      rw [Real.sq_sqrt (by norm_num : (0:ℝ) ≤ 2 / (1 - ((39:ℝ) / 40) ^ 2))]
      norm_num
    rw [hfv]
    norm_num
  rw [hpred, hconf]
  have hcnn : (0:ℝ) ≤ Real.sqrt (3042 / 79) * Real.sqrt 200 := by positivity
  refine lt_of_pow_lt_pow_left₀ 2 hcnn ?_
  rw [mul_pow, mul_pow, mul_pow, Real.sq_sqrt (by norm_num : (0:ℝ) ≤ 800 / 39),
      Real.sq_sqrt (by norm_num : (0:ℝ) ≤ 203), Real.sq_sqrt (by norm_num : (0:ℝ) ≤ 3042 / 79),
      Real.sq_sqrt (by norm_num : (0:ℝ) ≤ 200)]
  norm_num

/-! ## Claim C1: centered solve vs explicit Intercept column -/

theorem sums_to_mean {n p : ℕ} (X : Matrix (Fin n) (Fin p) ℚ) (hn : 0 < n) (j : Fin p) :
    (∑ i, X i j) = (n : ℚ) * colMeans X j := by
  have hn' : ((n : ℚ)) ≠ 0 := Nat.cast_ne_zero.mpr hn.ne'
  field_simp [colMeans]

theorem ysums_to_mean {n : ℕ} (y : Fin n → ℚ) (hn : 0 < n) :
    (∑ i, y i) = (n : ℚ) * respMean y := by
  have hn' : ((n : ℚ)) ≠ 0 := Nat.cast_ne_zero.mpr hn.ne'
  field_simp [respMean]

theorem row_expansion {n p : ℕ} (X : Matrix (Fin n) (Fin p) ℚ) (y : Fin n → ℚ)
    (β : Fin p → ℚ) (i : Fin n) :
    ∑ k, withOnes X i k * fullCoef X y β k
      = (∑ k, X i k * β k) + interceptCoef X y β := by
  rw [Fin.sum_univ_castSucc]
  congr 1
  · refine Finset.sum_congr rfl fun k _ => ?_
    simp [withOnes, fullCoef, Fin.snoc_castSucc]
  · simp [withOnes, fullCoef, Fin.snoc_last]

theorem mulvec_entry {n q : ℕ} (W : Matrix (Fin n) (Fin q) ℚ) (v : Fin q → ℚ)
    (j : Fin q) :
    ((Wᵀ * W) *ᵥ v) j = ∑ k, (∑ i, W i j * W i k) * v k := by
  simp [Matrix.mulVec, Matrix.dotProduct, Matrix.mul_apply, Matrix.transpose_apply]

theorem quad_swap {n q : ℕ} (W : Matrix (Fin n) (Fin q) ℚ) (v : Fin q → ℚ) (j : Fin q) :
    ∑ k, (∑ i, W i j * W i k) * v k = ∑ i, W i j * (∑ k, W i k * v k) := by
  calc ∑ k, (∑ i, W i j * W i k) * v k
      = ∑ k, ∑ i, W i j * (W i k * v k) := by
        refine Finset.sum_congr rfl fun k _ => ?_
        rw [Finset.sum_mul]
        refine Finset.sum_congr rfl fun i _ => ?_
        ring
    _ = ∑ i, ∑ k, W i j * (W i k * v k) := Finset.sum_comm
    _ = ∑ i, W i j * (∑ k, W i k * v k) := by
        refine Finset.sum_congr rfl fun i _ => ?_
        rw [Finset.mul_sum]

theorem ols_centered_normal_eq {n p : ℕ} (X : Matrix (Fin n) (Fin p) ℚ) (y : Fin n → ℚ)
    (β : Fin p → ℚ) (hn : 0 < n)
    (hβ : ((centeredX X)ᵀ * centeredX X) *ᵥ β = (centeredX X)ᵀ *ᵥ centeredResp y) :
    ((withOnes X)ᵀ * withOnes X) *ᵥ fullCoef X y β = (withOnes X)ᵀ *ᵥ y := by
  have hU : ∑ i, (∑ k, X i k * β k) = (n : ℚ) * (∑ k, colMeans X k * β k) := by
    calc ∑ i, ∑ k, X i k * β k
        = ∑ k, ∑ i, X i k * β k := Finset.sum_comm
      _ = ∑ k, (∑ i, X i k) * β k := by
          refine Finset.sum_congr rfl fun k _ => ?_
          rw [Finset.sum_mul]
      _ = ∑ k, ((n : ℚ) * colMeans X k) * β k := by
          refine Finset.sum_congr rfl fun k _ => ?_
          rw [sums_to_mean X hn k]
      _ = (n : ℚ) * ∑ k, colMeans X k * β k := by
          rw [Finset.mul_sum]
          refine Finset.sum_congr rfl fun k _ => ?_
          ring
  have hc : ∀ j, ∑ i, centeredX X i j * (∑ k, centeredX X i k * β k)
      = ∑ i, centeredX X i j * centeredResp y i := by
    intro j
    have h1 := congrFun hβ j
    rw [mulvec_entry] at h1
    rw [← quad_swap (centeredX X) β j, h1]
    simp [Matrix.mulVec, Matrix.dotProduct, Matrix.transpose_apply]
  funext j
  rw [mulvec_entry, quad_swap]
  have hWy : ((withOnes X)ᵀ *ᵥ y) j = ∑ i, withOnes X i j * y i := by
    simp [Matrix.mulVec, Matrix.dotProduct, Matrix.transpose_apply]
  rw [hWy]
  have hrows : ∑ i, withOnes X i j * (∑ k, withOnes X i k * fullCoef X y β k)
      = ∑ i, withOnes X i j * ((∑ k, X i k * β k) + interceptCoef X y β) := by
    refine Finset.sum_congr rfl fun i _ => ?_
    rw [row_expansion]
  rw [hrows]
  refine Fin.lastCases ?_ ?_ j
  · have hlast : ∀ i, withOnes X i (Fin.last p) = 1 := fun i => by
      simp [withOnes, Fin.snoc_last]
    simp only [hlast, one_mul]
    rw [Finset.sum_add_distrib, hU, Finset.sum_const, Finset.card_univ,
        Fintype.card_fin, nsmul_eq_mul]
    rw [ysums_to_mean y hn]
    simp only [interceptCoef]
    ring
  · intro j0
    have hcast : ∀ i, withOnes X i (Fin.castSucc j0) = X i j0 := fun i => by
      simp [withOnes, Fin.snoc_castSucc]
    simp only [hcast]
    have hE1 : ∀ i, (∑ k, centeredX X i k * β k)
        = (∑ k, X i k * β k) - (∑ k, colMeans X k * β k) := by
      intro i
      rw [← Finset.sum_sub_distrib]
      refine Finset.sum_congr rfl fun k _ => ?_
      show (X i k - colMeans X k) * β k = _
      ring
    have hdecomp : ∀ i,
        X i j0 * ((∑ k, X i k * β k) + interceptCoef X y β) - X i j0 * y i
          = (centeredX X i j0 * (∑ k, centeredX X i k * β k)
              - centeredX X i j0 * centeredResp y i)
            + colMeans X j0 * ((∑ k, X i k * β k) - (∑ k, colMeans X k * β k)
                - y i + respMean y) := by
      intro i
      rw [hE1 i]
      show X i j0 * ((∑ k, X i k * β k) + (respMean y - ∑ k, colMeans X k * β k))
          - X i j0 * y i
        = ((X i j0 - colMeans X j0) * ((∑ k, X i k * β k) - ∑ k, colMeans X k * β k)
            - (X i j0 - colMeans X j0) * (y i - respMean y))
          + colMeans X j0 * ((∑ k, X i k * β k) - (∑ k, colMeans X k * β k)
              - y i + respMean y)
      ring
    have hsum0 : ∑ i, ((∑ k, X i k * β k) - (∑ k, colMeans X k * β k)
        - y i + respMean y) = 0 := by
      rw [Finset.sum_add_distrib, Finset.sum_sub_distrib, Finset.sum_sub_distrib,
          Finset.sum_const, Finset.sum_const, Finset.card_univ, Fintype.card_fin,
          nsmul_eq_mul, nsmul_eq_mul, hU, ysums_to_mean y hn]
      ring
    have hdiff : ∑ i, (X i j0 * ((∑ k, X i k * β k) + interceptCoef X y β)
        - X i j0 * y i) = 0 := by
      calc ∑ i, (X i j0 * ((∑ k, X i k * β k) + interceptCoef X y β) - X i j0 * y i)
          = ∑ i, ((centeredX X i j0 * (∑ k, centeredX X i k * β k)
              - centeredX X i j0 * centeredResp y i)
            + colMeans X j0 * ((∑ k, X i k * β k) - (∑ k, colMeans X k * β k)
                - y i + respMean y)) := by
            exact Finset.sum_congr rfl fun i _ => hdecomp i
        _ = (∑ i, (centeredX X i j0 * (∑ k, centeredX X i k * β k)
              - centeredX X i j0 * centeredResp y i))
            + ∑ i, colMeans X j0 * ((∑ k, X i k * β k) - (∑ k, colMeans X k * β k)
                - y i + respMean y) := Finset.sum_add_distrib
        _ = 0 := by
            rw [Finset.sum_sub_distrib, hc j0]
            rw [← Finset.mul_sum, hsum0]
            ring
    have hdiff2 : (∑ i, X i j0 * ((∑ k, X i k * β k) + interceptCoef X y β))
        - (∑ i, X i j0 * y i) = 0 := by
      rw [← Finset.sum_sub_distrib]
      exact hdiff
    exact sub_eq_zero.mp hdiff2

/-- C1: if `β` solves the centered normal equations (line 97), then the full
coefficient vector — `β` with the Intercept entry `ȳ − X̄ᵀβ` appended
(line 100) — solves the normal equations of the uncentered design with an
explicit all-ones Intercept column; when that system is nonsingular the two
pipelines agree on the whole coefficient vector, and the fitted values
`_fit` computes from the uncentered design with the Intercept column
(line 111) equal those of the explicit-column OLS solve. -/
theorem centered_fit_matches_explicit_intercept_ols {n p : ℕ}
    (X : Matrix (Fin n) (Fin p) ℚ) (y : Fin n → ℚ) (β : Fin p → ℚ) (hn : 0 < n)
    (hβ : ((centeredX X)ᵀ * centeredX X) *ᵥ β = (centeredX X)ᵀ *ᵥ centeredResp y) :
    ((withOnes X)ᵀ * withOnes X) *ᵥ fullCoef X y β = (withOnes X)ᵀ *ᵥ y
    ∧ (∀ γ : Fin (p + 1) → ℚ, IsUnit ((withOnes X)ᵀ * withOnes X).det →
        ((withOnes X)ᵀ * withOnes X) *ᵥ γ = (withOnes X)ᵀ *ᵥ y →
        γ = fullCoef X y β
        ∧ fittedValues X (fullCoef X y β) = withOnes X *ᵥ γ) := by
  have hpart1 := ols_centered_normal_eq X y β hn hβ
  refine ⟨hpart1, ?_⟩
  intro γ hunit hγ
  have h1 : ((withOnes X)ᵀ * withOnes X)⁻¹ *ᵥ (((withOnes X)ᵀ * withOnes X) *ᵥ γ)
      = ((withOnes X)ᵀ * withOnes X)⁻¹
          *ᵥ (((withOnes X)ᵀ * withOnes X) *ᵥ fullCoef X y β) := by
    rw [hγ, hpart1]
  rw [Matrix.mulVec_mulVec, Matrix.mulVec_mulVec, Matrix.nonsing_inv_mul _ hunit,
      Matrix.one_mulVec, Matrix.one_mulVec] at h1
  refine ⟨h1, ?_⟩
  rw [h1]
  rfl

theorem ols_witness_centered_solution :
    ((centeredX olsX)ᵀ * centeredX olsX) *ᵥ olsBeta
      = (centeredX olsX)ᵀ *ᵥ centeredResp olsY := by
  funext j
  fin_cases j
  simp only [Matrix.mulVec, Matrix.dotProduct, Matrix.mul_apply, Matrix.transpose_apply,
    centeredX, centeredResp, colMeans, respMean, Matrix.of_apply, Fin.sum_univ_two,
    Fin.sum_univ_one]
  norm_num [olsX, olsY, olsBeta]

/-- Witness for C1 on `X = [0; 1]`, `y = (0, 1)`, whose centered normal
equations are solved by the slope 1. -/
theorem centered_fit_matches_explicit_intercept_ols_witness :
    0 < 2
    ∧ (((centeredX olsX)ᵀ * centeredX olsX) *ᵥ olsBeta
        = (centeredX olsX)ᵀ *ᵥ centeredResp olsY)
    ∧ (((withOnes olsX)ᵀ * withOnes olsX) *ᵥ fullCoef olsX olsY olsBeta
        = (withOnes olsX)ᵀ *ᵥ olsY
       ∧ (∀ γ : Fin 2 → ℚ, IsUnit ((withOnes olsX)ᵀ * withOnes olsX).det →
           ((withOnes olsX)ᵀ * withOnes olsX) *ᵥ γ = (withOnes olsX)ᵀ *ᵥ olsY →
           γ = fullCoef olsX olsY olsBeta
           ∧ fittedValues olsX (fullCoef olsX olsY olsBeta) = withOnes olsX *ᵥ γ)) :=
  ⟨by norm_num, ols_witness_centered_solution,
   centered_fit_matches_explicit_intercept_ols olsX olsY olsBeta (by norm_num)
     ols_witness_centered_solution⟩
